import Mathlib

/-!
Shallow embedding of the microshare-eventhub-function forwarder core:
the fetch–dedup–forward pipeline of `src/app/forwarder.py`,
`src/app/state_manager.py`, `src/app/eventhub_client.py` and
`src/app/microshare_client.py`.

Timestamps are abstracted as natural numbers (ISO-8601 strings in the
source; `isoformat` round-trips preserve order).  Python `int` ids are
modelled as `Int`; Python truthiness of ids (`None` and `0` are falsy)
and of lists (empty is falsy) is made explicit.
-/

namespace Microshare

/-- The `ForwarderState` dataclass of `state_manager.py` (the persisted
JSON blob).  `devices_tracked` is a Python `set`-union-maintained list,
modelled as a `Finset`. -/
structure ForwarderState where
  last_fetch_timestamp : Option Nat := none
  last_snapshot_id : Option Int := none
  total_snapshots_sent : Nat := 0
  total_duplicates_skipped : Nat := 0
  total_errors : Nat := 0
  last_success_timestamp : Option Nat := none
  last_error_timestamp : Option Nat := none
  last_error_message : Option String := none
  devices_tracked : Finset String := ∅
  total_pages_fetched : Nat := 0
  max_pages_in_single_fetch : Nat := 0
  last_pagination_warning : Option Nat := none
  deriving DecidableEq

/-- `StateManager.is_duplicate` of `state_manager.py`:
membership test on the in-memory `_recent_snapshot_ids` set; on a miss,
if the set holds more than 1000 ids the sorted lower half
(`sorted_ids[500:]` keeps everything from index 500 on) replaces it,
then the new id is inserted.  Returns (duplicate?, new set). -/
def is_duplicate (seen : Finset Int) (snapshot_id : Int) : Bool × Finset Int :=
  if snapshot_id ∈ seen then
    (true, seen)
  else
    let seen' :=
      if seen.card > 1000 then
        ((seen.sort (· ≤ ·)).drop 500).toFinset
      else
        seen
    (false, insert snapshot_id seen')

/-- A sequence of `is_duplicate` calls within one process lifetime,
threading the in-memory `_recent_snapshot_ids` set. -/
def foldSeen (seen : Finset Int) (ids : List Int) : Finset Int :=
  ids.foldl (fun s i => (is_duplicate s i).2) seen

/-- `StateManager.update_after_fetch` of `state_manager.py`.
`now` stands for the `datetime.utcnow()` read at persist time.
Python truthiness: `if last_snapshot_id:` skips `0`, `if devices:`
skips the empty list.  Note `last_fetch_timestamp` is assigned
unconditionally, before the `success` branch. -/
def update_after_fetch (st : ForwarderState) (now : Nat)
    (fetch_timestamp : Nat) (snapshots_sent : Nat) (duplicates_skipped : Nat)
    (last_snapshot_id : Option Int := none)
    (devices : Option (List String) := none)
    (success : Bool := true)
    (error_message : Option String := none)
    (pages_fetched : Nat := 1)
    (total_records : Option Nat := none) : ForwarderState :=
  let st := { st with
    last_fetch_timestamp := some fetch_timestamp
    total_snapshots_sent := st.total_snapshots_sent + snapshots_sent
    total_duplicates_skipped := st.total_duplicates_skipped + duplicates_skipped }
  let st := match last_snapshot_id with
    | some i => if i ≠ 0 then { st with last_snapshot_id := some i } else st
    | none => st
  let st := match devices with
    | some l => if l ≠ [] then { st with devices_tracked := st.devices_tracked ∪ l.toFinset } else st
    | none => st
  let st := { st with
    total_pages_fetched := st.total_pages_fetched + pages_fetched
    max_pages_in_single_fetch := max st.max_pages_in_single_fetch pages_fetched }
  let st := if pages_fetched > 1 then { st with last_pagination_warning := some now } else st
  let _ := total_records
  if success then
    { st with last_success_timestamp := some now }
  else
    { st with
      total_errors := st.total_errors + 1
      last_error_timestamp := some now
      last_error_message := error_message }

/-- One snapshot dictionary as `_process_snapshots` sees it:
`snapshot_id` and `device_id` read via `.get` (may be absent),
`sendOk` models whether the per-record `try` body
(`_transform_snapshot` + `eventhub_client.send_event`) completes
without raising. -/
structure Snapshot where
  snapshot_id : Option Int := none
  device_id : Option String := none
  sendOk : Bool := true
  deriving DecidableEq

/-- Python truthiness of an optional int: `None` and `0` are falsy. -/
def truthyId : Option Int → Bool
  | some i => i ≠ 0
  | none => false

/-- Python truthiness of an optional string: `None` and `""` are falsy. -/
def truthyStr : Option String → Bool
  | some s => s ≠ ""
  | none => false

/-- Accumulator threaded through the `for snapshot in snapshots` loop of
`MicroshareForwarder._process_snapshots`:  the three counters, the
in-memory dedup set, and the list of events delivered to the hub
(`send_event` calls), in order. -/
structure ProcAcc where
  sent : Nat := 0
  dups : Nat := 0
  errs : Nat := 0
  seen : Finset Int := ∅
  sink : List Snapshot := []
  deriving DecidableEq

/-- One iteration of `_process_snapshots`' loop: the truthy-id guard and
short-circuit (`if snapshot_id and self.state_manager.is_duplicate(...)`),
then transform+send inside the same `try`, with an exception counted in
`errors`. -/
def procStep (acc : ProcAcc) (s : Snapshot) : ProcAcc :=
  if truthyId s.snapshot_id then
    let (dup, seen') := is_duplicate acc.seen (s.snapshot_id.getD 0)
    if dup then
      { acc with dups := acc.dups + 1, seen := seen' }
    else if s.sendOk then
      { acc with sent := acc.sent + 1, seen := seen', sink := acc.sink ++ [s] }
    else
      { acc with errs := acc.errs + 1, seen := seen' }
  else if s.sendOk then
    { acc with sent := acc.sent + 1, sink := acc.sink ++ [s] }
  else
    { acc with errs := acc.errs + 1 }

/-- `MicroshareForwarder._process_snapshots`: fold the loop body over the
snapshot list, starting from the current dedup set. -/
def process_snapshots (seen : Finset Int) (snapshots : List Snapshot) : ProcAcc :=
  snapshots.foldl procStep { seen := seen }

/-- Result of the `get_snapshots_in_range` call as `fetch_and_forward`
observes it: either the retrieved list or a raised exception message. -/
inductive FetchResult where
  | ok (snapshots : List Snapshot)
  | err (msg : String)

/-- The page-count estimate of `fetch_and_forward`:
`(n // 999) + (1 if n % 999 else 0) if n > 0 else 1`. -/
def pagesOf (n : Nat) : Nat :=
  if n > 0 then n / 999 + (if n % 999 ≠ 0 then 1 else 0) else 1

/-- The truthy snapshot ids of a fetch,
`[s.get('snapshot_id') for s in snapshots if s.get('snapshot_id')]`. -/
def truthyIds (snapshots : List Snapshot) : List Int :=
  (snapshots.filter (fun s => truthyId s.snapshot_id)).filterMap (·.snapshot_id)

/-- The truthy device ids of a fetch,
`[s.get('device_id') for s in snapshots if s.get('device_id')]`
(duplicates removed by `set(...)`). -/
def truthyDevices (snapshots : List Snapshot) : List String :=
  ((snapshots.filter (fun s => truthyStr s.device_id)).filterMap (·.device_id)).dedup

/-- Everything observable from one `fetch_and_forward` run: the states
handed to `update_after_fetch` (each immediately `_save_state`d), the
final dedup set, the delivered events, and the returned triple or the
re-raised exception. -/
structure CycleOutput where
  persists : List ForwarderState
  seen : Finset Int
  sink : List Snapshot
  result : Except String (Nat × Nat × Nat)

/-- `MicroshareForwarder.fetch_and_forward`.  `fetchStart` is the
`datetime.utcnow()` taken on entry (both the window end `to_time` and the
persisted `fetch_timestamp`); `now` is the clock at persist time; `fr` is
the outcome of the provider fetch.  The `except` branch persists with
`success=False` and the message, then re-raises.  On a non-empty fetch
whose truthy-id list is empty, Python's `max([])` raises `ValueError`
after processing, landing in the same `except` branch. -/
def fetch_and_forward (st : ForwarderState) (seen : Finset Int)
    (fetchStart now : Nat) (fr : FetchResult) : CycleOutput :=
  match fr with
  | .err msg =>
      let st' := update_after_fetch st now fetchStart 0 0 none none false (some msg) 1 none
      ⟨[st'], seen, [], .error msg⟩
  | .ok [] =>
      let st' := update_after_fetch st now fetchStart 0 0 none none true none 1 none
      ⟨[st'], seen, [], .ok (0, 0, 0)⟩
  | .ok snapshots =>
      let p := process_snapshots seen snapshots
      let tids := truthyIds snapshots
      match tids.max? with
      | none =>
          -- max([]) raises ValueError; caught by the outer except
          let msg := "max() arg is an empty sequence"
          let st' := update_after_fetch st now fetchStart 0 0 none none false (some msg) 1 none
          ⟨[st'], p.seen, p.sink, .error msg⟩
      | some lastId =>
          let devices := truthyDevices snapshots
          let pages := pagesOf snapshots.length
          let st' := update_after_fetch st now fetchStart p.sent p.dups (some lastId)
            (some devices) (p.errs == 0) none pages (some snapshots.length)
          ⟨[st'], p.seen, p.sink, .ok (p.sent, p.dups, p.errs)⟩

/-! ### EventHubClient (`src/app/eventhub_client.py`) -/

/-- Accumulator of `EventHubClient.send_events_batch`'s chunk loop: one
delivered-batches log per configured hub (the `producer.send_batch`
calls, in order), and the running `total_sent`. -/
structure SendAcc (α : Type) where
  hubLogs : List (List (List α))
  totalSent : Nat
  deriving DecidableEq

/-- The slicing loop `for i in range(0, len(events), max_batch_size)`:
consecutive chunks `events[i:i + max_batch_size]`.  Fuel-driven so the
definition is total; `length l` fuel suffices whenever `bs ≥ 1`. -/
def chunksAux (bs : Nat) : Nat → List α → List (List α)
  | _, [] => []
  | 0, _ => []
  | fuel + 1, l => l.take bs :: chunksAux bs fuel (l.drop bs)

/-- The list of batches `send_events_batch` forms from `events`. -/
def chunks (bs : Nat) (l : List α) : List (List α) :=
  chunksAux bs l.length l

/-- `EventHubClient.send_events_batch` with `k` configured hubs and
`bs = max_batch_size`: empty input returns 0 immediately; otherwise each
chunk is appended to the delivered log of every hub and `total_sent`
grows by the chunk length.  The `EventData`/properties wrapping is a
per-event injection and is abstracted to the event itself. -/
def send_events_batch (k bs : Nat) (events : List α) : SendAcc α :=
  if events.isEmpty then
    { hubLogs := List.replicate k [], totalSent := 0 }
  else
    (chunks bs events).foldl
      (fun st batch =>
        { hubLogs := st.hubLogs.map (fun log => log ++ [batch]),
          totalSent := st.totalSent + batch.length })
      { hubLogs := List.replicate k [], totalSent := 0 }

/-! ### MicroshareClient fan-out (`src/app/microshare_client.py`) -/

/-- One object of a dashboard-view response: its `data.line` array and
the `data._id.tags` list.  The opaque per-entry payload is a `Nat`. -/
structure DashRecord where
  line : List Nat
  tags : List String
  deriving DecidableEq

/-- One flattened snapshot entry produced by
`get_snapshot_full_coverage` step 4: the `line[]` element enriched with
`_location_tags`, `_location` and `_pc_location`. -/
structure SnapEntry where
  payload : Nat
  location_tags : List String
  location : String
  pc_location : String
  deriving DecidableEq

/-- Step 2 location-name mapping of `get_snapshot_full_coverage`:
`pc_loc.replace(f"{location_prefix} ", "")` when a prefix is configured,
identity otherwise. -/
def mapLoc (locPfx : String) (pc_loc : String) : String :=
  if locPfx ≠ "" then pc_loc.replace (locPfx ++ " ") "" else pc_loc

/-- The per-location query loop of `get_snapshot_full_coverage`
(steps 3–4).  The whole loop runs inside one `try`: a
`requests` failure on any location's query propagates out and is
re-raised as `MicroshareAPIError`, discarding everything accumulated so
far.  `query` maps a mapped location name to its dashboard response. -/
def queryLocations (query : String → Except String (List DashRecord)) :
    List (String × String) → Except String (List SnapEntry)
  | [] => .ok []
  | (pc_loc, snapshot_loc) :: rest =>
    match query snapshot_loc with
    | .error e => .error e
    | .ok recs =>
      let entries := recs.flatMap (fun sr =>
        sr.line.map (fun entry =>
          { payload := entry, location_tags := sr.tags,
            location := snapshot_loc, pc_location := pc_loc : SnapEntry }))
      match queryLocations query rest with
      | .error e => .error e
      | .ok more => .ok (entries ++ more)

/-- `MicroshareClient.get_snapshot_full_coverage`, given the already
discovered people-counter locations (step 1) and the per-location query
outcome.  Empty discovery returns `[]` early; otherwise locations are
mapped and queried in order, with any query failure aborting the whole
call. -/
def get_snapshot_full_coverage (locPfx : String)
    (pc_locations : List String)
    (query : String → Except String (List DashRecord)) :
    Except String (List SnapEntry) :=
  if pc_locations = [] then
    .ok []
  else
    queryLocations query (pc_locations.map (fun pc => (pc, mapLoc locPfx pc)))

/-- One flattened people-counter event of
`get_people_counter_full_coverage` step 3: the `line[]` element plus
`_location_tags`. -/
structure PCEntry where
  payload : Nat
  location_tags : List String
  deriving DecidableEq

/-- The per-location dashboard loop of
`get_people_counter_full_coverage` (steps 2–3); same single-`try`
structure: one failing location aborts the whole call. -/
def queryLocationsPC (query : String → Except String (List DashRecord)) :
    List String → Except String (List PCEntry)
  | [] => .ok []
  | location :: rest =>
    match query location with
    | .error e => .error e
    | .ok recs =>
      let events := recs.flatMap (fun dr =>
        dr.line.map (fun entry =>
          { payload := entry, location_tags := dr.tags : PCEntry }))
      match queryLocationsPC query rest with
      | .error e => .error e
      | .ok more => .ok (events ++ more)

/-- `MicroshareClient.get_people_counter_full_coverage`, given the
discovered locations and the per-location query outcome. -/
def get_people_counter_full_coverage
    (locations_for_identity : List String)
    (query : String → Except String (List DashRecord)) :
    Except String (List PCEntry) :=
  if locations_for_identity = [] then
    .ok []
  else
    queryLocationsPC query locations_for_identity

/-! ### MicroshareClient token handling (`src/app/microshare_client.py`) -/

/-- The parsed `token_cache.json` file: both fields read with `.get`,
so either may be absent. Expiry abstracted to seconds. -/
structure TokenCacheFile where
  access_token : Option String
  expires_at : Option Int
  deriving DecidableEq

/-- The decoded JWT payload of the `PLAY_SESSION` cookie:
`data.access_token` and `exp` (read as `payload_data.get('exp', 0)`). -/
structure JwtPayload where
  access_token : Option String
  exp : Option Int
  deriving DecidableEq

/-- The login response as `_get_token` inspects it: HTTP status and the
decoded cookie; `jwt = none` covers a missing `PLAY_SESSION` cookie or a
malformed JWT (both raise before any token is extracted). -/
structure LoginResp where
  status : Nat
  jwt : Option JwtPayload
  deriving DecidableEq

/-- What `_get_token` produces on success: the returned value (the
cache path returns `self._token`, which the loader set to
`data.get('access_token')` and may be `None`), whether the cache path
was taken, and the cache file written by `_save_token_to_file` (none on
the cache path, which writes nothing). -/
structure TokenOutcome where
  token : Option String
  fromCache : Bool
  saved : Option TokenCacheFile
  deriving DecidableEq

/-- `MicroshareClient._load_token_from_file`: returns `True` only when
the file is readable, carries an `expires_at`, and
`now < expires_at − 5min`; `self._token` is set to
`data.get('access_token')` regardless.  Returns (valid?, loaded token). -/
def load_token_from_file (cache : Option TokenCacheFile) (now : Int) :
    Bool × Option String :=
  match cache with
  | none => (false, none)
  | some f =>
    match f.expires_at with
    | none => (false, f.access_token)
    | some exp_at =>
      if now < exp_at - 5 * 60 then (true, f.access_token)
      else (false, f.access_token)

/-- `MicroshareClient._get_token`: cache hit short-circuits; otherwise
the web login runs — transport failure, a status other than 303, a
missing/malformed cookie JWT and a missing `access_token` all raise
`MicroshareAuthError`; on success the expiry is `exp` when truthy, else
`now + 86400`, and the token is saved to file before returning. -/
def get_token (cache : Option TokenCacheFile) (now : Int)
    (login : Except String LoginResp) : Except String TokenOutcome :=
  match load_token_from_file cache now with
  | (true, tok) => .ok { token := tok, fromCache := true, saved := none }
  | (false, _) =>
    match login with
    | .error e => .error ("Failed to get token via web login: " ++ e)
    | .ok resp =>
      if resp.status ≠ 303 then
        .error "Login failed"
      else
        match resp.jwt with
        | none => .error "No PLAY_SESSION cookie or invalid JWT"
        | some payload =>
          match payload.access_token with
          | none => .error "No access_token in JWT payload"
          | some tok =>
            let expiresAt :=
              match payload.exp with
              | some e => if e ≠ 0 then e else now + 86400
              | none => now + 86400
            .ok { token := some tok, fromCache := false,
                  saved := some { access_token := some tok, expires_at := some expiresAt } }

/-! ### Helper lemmas -/

/-- Each loop iteration of `_process_snapshots` classifies its record
into exactly one of the three counters. -/
lemma procStep_counts (acc : ProcAcc) (s : Snapshot) :
    (procStep acc s).sent + (procStep acc s).dups + (procStep acc s).errs
      = acc.sent + acc.dups + acc.errs + 1 := by
  unfold procStep
  rcases h : is_duplicate acc.seen (s.snapshot_id.getD 0) with ⟨d, seen'⟩
  by_cases ht : truthyId s.snapshot_id <;> by_cases hs : s.sendOk <;>
    cases d <;> simp [ht, hs, h] <;> omega

lemma foldl_procStep_counts (l : List Snapshot) :
    ∀ acc : ProcAcc,
      (l.foldl procStep acc).sent + (l.foldl procStep acc).dups
        + (l.foldl procStep acc).errs
      = acc.sent + acc.dups + acc.errs + l.length := by
  induction l with
  | nil => intro acc; simp
  | cons s t ih =>
      intro acc
      have h1 := procStep_counts acc s
      simp only [List.foldl_cons, List.length_cons]
      rw [ih (procStep acc s)]
      omega

end Microshare

namespace Microshare

/-- C9: For every input list of snapshots, the (sent, duplicates,
errors) triple returned by `_process_snapshots` satisfies
sent + duplicates + errors = length of the input list: each record is
counted in exactly one of the three categories. -/
theorem process_snapshots_counts_partition (seen : Finset Int)
    (snapshots : List Snapshot) :
    (process_snapshots seen snapshots).sent
      + (process_snapshots seen snapshots).dups
      + (process_snapshots seen snapshots).errs
      = snapshots.length := by
  unfold process_snapshots
  simpa using foldl_procStep_counts snapshots { seen := seen }

/-- C7: A cycle whose fetch succeeds with zero records still persists
exactly one state with success=true — cumulative sent/duplicate/error
counters unchanged (zero added), `last_success_timestamp` stamped —
advances `last_fetch_timestamp` to the cycle's window end (the fetch
start, which is `to_time`), and returns (0, 0, 0) to the caller. -/
theorem fetch_and_forward_empty_advances_cursor (st : ForwarderState)
    (seen : Finset Int) (fetchStart now : Nat) :
    (fetch_and_forward st seen fetchStart now (.ok [])).result = .ok (0, 0, 0) ∧
    (fetch_and_forward st seen fetchStart now (.ok [])).sink = [] ∧
    (fetch_and_forward st seen fetchStart now (.ok [])).persists.map
        (·.last_fetch_timestamp) = [some fetchStart] ∧
    (fetch_and_forward st seen fetchStart now (.ok [])).persists.map
        (·.last_success_timestamp) = [some now] ∧
    (fetch_and_forward st seen fetchStart now (.ok [])).persists.map
        (·.total_snapshots_sent) = [st.total_snapshots_sent] ∧
    (fetch_and_forward st seen fetchStart now (.ok [])).persists.map
        (·.total_duplicates_skipped) = [st.total_duplicates_skipped] ∧
    (fetch_and_forward st seen fetchStart now (.ok [])).persists.map
        (·.total_errors) = [st.total_errors] ∧
    (fetch_and_forward st seen fetchStart now (.ok [])).persists.map
        (·.last_error_message) = [st.last_error_message] := by
  refine ⟨rfl, rfl, ?_, ?_, ?_, ?_, ?_, ?_⟩ <;>
    simp [fetch_and_forward, update_after_fetch]

/-- C4: Any exception during the fetch/forward body of a cycle still
persists state exactly once, with success=false — incrementing
`total_errors`, stamping `last_error_timestamp`, recording the captured
message in `last_error_message` — before re-raising to the caller.  This
covers the fetch raising, and the post-forward `max([])` `ValueError`
raised when no truthy snapshot id exists; nothing is silently
swallowed. -/
theorem fetch_and_forward_error_audit (st : ForwarderState) (seen : Finset Int)
    (fetchStart now : Nat) (msg : String) :
    (fetch_and_forward st seen fetchStart now (.err msg)).result = .error msg ∧
    (fetch_and_forward st seen fetchStart now (.err msg)).persists.map
        (·.total_errors) = [st.total_errors + 1] ∧
    (fetch_and_forward st seen fetchStart now (.err msg)).persists.map
        (·.last_error_timestamp) = [some now] ∧
    (fetch_and_forward st seen fetchStart now (.err msg)).persists.map
        (·.last_error_message) = [some msg] ∧
    ∀ snapshots : List Snapshot, snapshots ≠ [] → truthyIds snapshots = [] →
      (fetch_and_forward st seen fetchStart now (.ok snapshots)).result
          = .error "max() arg is an empty sequence" ∧
      (fetch_and_forward st seen fetchStart now (.ok snapshots)).persists.map
          (·.total_errors) = [st.total_errors + 1] ∧
      (fetch_and_forward st seen fetchStart now (.ok snapshots)).persists.map
          (·.last_error_message) = [some "max() arg is an empty sequence"] := by
  refine ⟨rfl, ?_, ?_, ?_, ?_⟩
  · simp [fetch_and_forward, update_after_fetch]
  · simp [fetch_and_forward, update_after_fetch]
  · simp [fetch_and_forward, update_after_fetch]
  · intro snapshots hne hids
    match snapshots, hne with
    | s :: t, _ =>
      refine ⟨?_, ?_, ?_⟩ <;>
        simp [fetch_and_forward, hids, update_after_fetch]

/-- Witness for C4: a concrete failed fetch and a concrete id-less
snapshot batch both leave the audit trail. -/
theorem fetch_and_forward_error_audit_witness :
    (fetch_and_forward {} ∅ 3 4 (.err "boom")).result = .error "boom" ∧
    (fetch_and_forward {} ∅ 3 4 (.err "boom")).persists.map (·.total_errors) = [1] ∧
    (fetch_and_forward {} ∅ 3 4 (.ok [{ snapshot_id := none }])).result
      = .error "max() arg is an empty sequence" := by
  have h := fetch_and_forward_error_audit {} ∅ 3 4 "boom"
  refine ⟨h.1, by simpa using h.2.1, ?_⟩
  exact (h.2.2.2.2 [{ snapshot_id := none }] (by decide) (by decide)).1

/-- C1 is a code bug: after a hard-failed cycle (`success=False`),
`update_after_fetch` still overwrites `last_fetch_timestamp` with the
failed cycle's fetch start — here a cursor at 50 is moved to 100 by a
cycle whose fetch raised — contradicting the documented contract that
the cursor only reflects successful fetches and advances only on
success. -/
theorem failed_cycle_still_moves_cursor :
    (fetch_and_forward { last_fetch_timestamp := some 50 } ∅ 100 100
        (.err "boom")).persists.map (·.last_fetch_timestamp) = [some 100] ∧
    ((fetch_and_forward { last_fetch_timestamp := some 50 } ∅ 100 100
        (.err "boom")).result matches .error _) ∧
    some 100 ≠ (some 50 : Option Nat) := by
  refine ⟨?_, by constructor, by decide⟩
  simp [fetch_and_forward, update_after_fetch]

/-- C10: A record whose `snapshot_id` is absent or falsy (e.g. 0) skips
the duplicate check entirely: it is never counted as a duplicate, never
added to the seen-id set, and — whenever its send succeeds — is
forwarded on every occurrence, including repeats of the same record. -/
theorem falsy_id_skips_dedup (seen : Finset Int) (acc : ProcAcc) (s : Snapshot)
    (h : truthyId s.snapshot_id = false) :
    (procStep acc s).seen = acc.seen ∧
    (procStep acc s).dups = acc.dups ∧
    (s.sendOk = true →
      (procStep acc s).sent = acc.sent + 1 ∧
      (procStep acc s).sink = acc.sink ++ [s] ∧
      process_snapshots seen [s, s] =
        { sent := 2, dups := 0, errs := 0, seen := seen, sink := [s, s] }) := by
  refine ⟨?_, ?_, ?_⟩
  · unfold procStep; cases hs : s.sendOk <;> simp [h, hs]
  · unfold procStep; cases hs : s.sendOk <;> simp [h, hs]
  · intro hs
    refine ⟨?_, ?_, ?_⟩ <;>
      simp [process_snapshots, procStep, h, hs]

/-- Witness for C10: a record with `snapshot_id = 0` (falsy) processed
twice is forwarded twice and never flagged as a duplicate. -/
theorem falsy_id_skips_dedup_witness :
    (procStep {} { snapshot_id := some 0 }).dups = 0 ∧
    process_snapshots ∅ [{ snapshot_id := some 0 }, { snapshot_id := some 0 }] =
      { sent := 2, dups := 0, errs := 0, seen := ∅,
        sink := [{ snapshot_id := some 0 }, { snapshot_id := some 0 }] } := by
  have h := falsy_id_skips_dedup ∅ {} { snapshot_id := some 0 } (by decide)
  exact ⟨h.2.1, (h.2.2 rfl).2.2⟩

/-- C3: the same truthy id seen twice within the dedup window: the
first (fresh) occurrence, when its send succeeds, is delivered to the
hub and counted in `sent`; the second occurrence — its id still in the
in-memory set — is counted in `duplicates`, adds nothing to `sent`, and
is not delivered to any sink. -/
theorem duplicate_id_suppressed (seen0 : Finset Int) (pre mid : List Snapshot)
    (a b : Snapshot) (n : Int)
    (ha : a.snapshot_id = some n) (hb : b.snapshot_id = some n) (hn : n ≠ 0)
    (hsend : a.sendOk = true)
    (hfresh : n ∉ (process_snapshots seen0 pre).seen)
    (hwin : n ∈ (process_snapshots seen0 (pre ++ [a] ++ mid)).seen) :
    (process_snapshots seen0 (pre ++ [a])).sent
        = (process_snapshots seen0 pre).sent + 1 ∧
    (process_snapshots seen0 (pre ++ [a])).sink
        = (process_snapshots seen0 pre).sink ++ [a] ∧
    (process_snapshots seen0 (pre ++ [a] ++ mid ++ [b])).dups
        = (process_snapshots seen0 (pre ++ [a] ++ mid)).dups + 1 ∧
    (process_snapshots seen0 (pre ++ [a] ++ mid ++ [b])).sent
        = (process_snapshots seen0 (pre ++ [a] ++ mid)).sent ∧
    (process_snapshots seen0 (pre ++ [a] ++ mid ++ [b])).sink
        = (process_snapshots seen0 (pre ++ [a] ++ mid)).sink := by
  have hstep1 : process_snapshots seen0 (pre ++ [a])
      = procStep (process_snapshots seen0 pre) a := by
    simp [process_snapshots, List.foldl_append]
  have hstep2 : process_snapshots seen0 (pre ++ [a] ++ mid ++ [b])
      = procStep (process_snapshots seen0 (pre ++ [a] ++ mid)) b := by
    simp [process_snapshots, List.foldl_append]
  have hta : truthyId a.snapshot_id = true := by simp [truthyId, ha, hn]
  have htb : truthyId b.snapshot_id = true := by simp [truthyId, hb, hn]
  have hga : a.snapshot_id.getD 0 = n := by simp [ha]
  have hgb : b.snapshot_id.getD 0 = n := by simp [hb]
  set P1 := process_snapshots seen0 pre with hP1
  set P3 := process_snapshots seen0 (pre ++ [a] ++ mid) with hP3
  refine ⟨?_, ?_, ?_, ?_, ?_⟩
  · rw [hstep1]; simp [procStep, is_duplicate, hta, hga, hfresh, hsend]
  · rw [hstep1]; simp [procStep, is_duplicate, hta, hga, hfresh, hsend]
  · rw [hstep2]; simp [procStep, is_duplicate, htb, hgb, hwin]
  · rw [hstep2]; simp [procStep, is_duplicate, htb, hgb, hwin]
  · rw [hstep2]; simp [procStep, is_duplicate, htb, hgb, hwin]

/-- Witness for C3: id 5 processed twice in a row from an empty dedup
set — sent once and delivered, then suppressed as a duplicate. -/
theorem duplicate_id_suppressed_witness :
    (process_snapshots ∅ ([] ++ [({ snapshot_id := some 5 } : Snapshot)])).sent
      = (process_snapshots ∅ []).sent + 1 ∧
    (process_snapshots ∅ ([] ++ [({ snapshot_id := some 5 } : Snapshot)] ++ []
        ++ [({ snapshot_id := some 5 } : Snapshot)])).dups
      = (process_snapshots ∅ ([] ++ [({ snapshot_id := some 5 } : Snapshot)]
        ++ [])).dups + 1 ∧
    (process_snapshots ∅ ([] ++ [({ snapshot_id := some 5 } : Snapshot)] ++ []
        ++ [({ snapshot_id := some 5 } : Snapshot)])).sink
      = (process_snapshots ∅ ([] ++ [({ snapshot_id := some 5 } : Snapshot)]
        ++ [])).sink := by
  have h := duplicate_id_suppressed ∅ [] [] { snapshot_id := some 5 }
      { snapshot_id := some 5 } 5 rfl rfl (by decide) rfl (by decide) (by decide)
  exact ⟨h.1, h.2.2.1, h.2.2.2.2⟩

/-- With a positive batch size and enough fuel, concatenating the
chunks gives back the original list. -/
lemma chunksAux_join {α : Type} (bs : Nat) (hbs : 1 ≤ bs) :
    ∀ (fuel : Nat) (l : List α), l.length ≤ fuel →
      (chunksAux bs fuel l).flatten = l := by
  intro fuel
  induction fuel with
  | zero =>
      intro l hl
      have : l = [] := List.length_eq_zero.mp (Nat.le_zero.mp hl)
      subst this; rfl
  | succ f ih =>
      intro l hl
      cases l with
      | nil => rfl
      | cons x t =>
          have hdrop : ((x :: t).drop bs).length ≤ f := by
            simp only [List.length_drop, List.length_cons] at *
            omega
          simp only [chunksAux, List.flatten_cons, ih _ hdrop]
          exact List.take_append_drop bs (x :: t)

/-- Every chunk has length at most the batch size. -/
lemma chunksAux_mem_length {α : Type} (bs : Nat) :
    ∀ (fuel : Nat) (l : List α) (c : List α), c ∈ chunksAux bs fuel l →
      c.length ≤ bs := by
  intro fuel
  induction fuel with
  | zero =>
      intro l c hc
      cases l <;> simp [chunksAux] at hc
  | succ f ih =>
      intro l c hc
      cases l with
      | nil => simp [chunksAux] at hc
      | cons x t =>
          simp only [chunksAux, List.mem_cons] at hc
          rcases hc with h | h
          · subst h
            simpa using Nat.min_le_left bs (x :: t).length
          · exact ih _ _ h

/-- The chunk loop of `send_events_batch`: every hub's delivered log
grows by exactly the chunk list, and `total_sent` by the summed chunk
lengths. -/
lemma sendFold_spec {α : Type} (cs : List (List α)) :
    ∀ (hl : List (List (List α))) (t : Nat),
      cs.foldl
        (fun st batch =>
          { hubLogs := st.hubLogs.map (fun log => log ++ [batch]),
            totalSent := st.totalSent + batch.length })
        ({ hubLogs := hl, totalSent := t } : SendAcc α)
      = { hubLogs := hl.map (· ++ cs),
          totalSent := t + (cs.map List.length).sum } := by
  induction cs with
  | nil => intro hl t; simp
  | cons c cs ih =>
      intro hl t
      simp only [List.foldl_cons, ih, List.map_map, List.map_cons, List.sum_cons]
      congr 1
      · apply List.map_congr_left
        intro l _
        simp
      · omega

/-- C5: With `k ≥ 1` configured hubs, a positive max batch size and a
non-empty event list, `send_events_batch` splits the events into
consecutive chunks of at most `bs` events (their concatenation is the
input), delivers the identical chunk sequence to every one of the `k`
hubs (fan-out replication, not partitioning), and returns a sent count
equal to the input length. -/
theorem send_events_batch_replicates {α : Type} (k bs : Nat) (events : List α)
    (hk : 1 ≤ k) (hbs : 1 ≤ bs) (hne : events ≠ []) :
    (send_events_batch k bs events).totalSent = events.length ∧
    (send_events_batch k bs events).hubLogs
      = List.replicate k (chunks bs events) ∧
    (send_events_batch k bs events).hubLogs.length = k ∧
    (∀ c ∈ chunks bs events, c.length ≤ bs) ∧
    (chunks bs events).flatten = events := by
  have hjoin : (chunks bs events).flatten = events :=
    chunksAux_join bs hbs events.length events le_rfl
  have hlen : ∀ c ∈ chunks bs events, c.length ≤ bs :=
    fun c hc => chunksAux_mem_length bs events.length events c hc
  have hemp : events.isEmpty = false := by
    cases events with
    | nil => exact absurd rfl hne
    | cons x t => rfl
  have hsum : ((chunks bs events).map List.length).sum = events.length := by
    rw [← List.length_flatten, hjoin]
  constructor
  · simp [send_events_batch, hemp, sendFold_spec, hsum]
  refine ⟨?_, ?_, hlen, hjoin⟩
  · simp only [send_events_batch, hemp, Bool.false_eq_true, if_false,
      sendFold_spec, List.map_replicate, List.nil_append]
  · simp [send_events_batch, hemp, sendFold_spec]

/-- Witness for C5: three events, two hubs, batch size two — both hubs
get the chunk sequence [[1, 2], [3]] and the sent count is 3. -/
theorem send_events_batch_replicates_witness :
    (send_events_batch 2 2 [1, 2, 3]).totalSent = 3 ∧
    (send_events_batch 2 2 [1, 2, 3]).hubLogs
      = List.replicate 2 (chunks 2 [1, 2, 3]) ∧
    (chunks 2 [1, 2, 3]).flatten = [1, 2, 3] := by
  have h := send_events_batch_replicates 2 2 [1, 2, 3]
      (by decide) (by decide) (by decide)
  exact ⟨by simpa using h.1, h.2.1, h.2.2.2.2⟩

/-- The eviction `set(sorted_ids[500:])` keeps `card − 500` ids. -/
lemma evicted_card (s : Finset Int) :
    (((s.sort (· ≤ ·)).drop 500).toFinset).card = s.card - 500 := by
  rw [List.toFinset_card_of_nodup
    ((Finset.sort_nodup (· ≤ ·) s).sublist (List.drop_sublist _ _))]
  simp [List.length_drop, Finset.length_sort]

/-- One `is_duplicate` call never pushes the set past 1001 ids. -/
lemma is_duplicate_card_le (s : Finset Int) (i : Int) (h : s.card ≤ 1001) :
    ((is_duplicate s i).2).card ≤ 1001 := by
  by_cases hm : i ∈ s
  · simpa [is_duplicate, hm] using h
  · by_cases hc : s.card > 1000
    · simp only [is_duplicate, if_neg hm, if_pos hc]
      calc (insert i ((s.sort (· ≤ ·)).drop 500).toFinset).card
          ≤ (((s.sort (· ≤ ·)).drop 500).toFinset).card + 1 :=
            Finset.card_insert_le _ _
        _ = s.card - 500 + 1 := by rw [evicted_card]
        _ ≤ 1001 := by omega
    · simp only [is_duplicate, if_neg hm, if_neg hc]
      calc (insert i s).card ≤ s.card + 1 := Finset.card_insert_le _ _
        _ ≤ 1001 := by omega

/-- `foldSeen` distributes over list append. -/
lemma foldSeen_append (s : Finset Int) (l1 l2 : List Int) :
    foldSeen s (l1 ++ l2) = foldSeen (foldSeen s l1) l2 := by
  simp [foldSeen, List.foldl_append]

/-- Folding fresh, pairwise-distinct nonnegative ids `0 .. n−1` into an
empty set never triggers eviction while `n ≤ 1001`: the set is exactly
the id range. -/
lemma foldSeen_range : ∀ n : Nat, n ≤ 1001 →
    foldSeen ∅ ((List.range n).map (Nat.cast : Nat → Int))
      = Finset.image (Nat.cast : Nat → Int) (Finset.range n) := by
  intro n
  induction n with
  | zero => intro _; simp [foldSeen]
  | succ n ih =>
      intro hn
      have hmem : ((n : Int)) ∉ Finset.image (Nat.cast : Nat → Int) (Finset.range n) := by
        simp only [Finset.mem_image, Finset.mem_range]
        rintro ⟨x, hx, he⟩
        omega
      have hcard : (Finset.image (Nat.cast : Nat → Int) (Finset.range n)).card = n := by
        rw [Finset.card_image_of_injective _ Nat.cast_injective, Finset.card_range]
      have hle : ¬ ((Finset.image (Nat.cast : Nat → Int) (Finset.range n)).card > 1000) := by
        rw [hcard]; omega
      rw [List.range_succ, List.map_append, foldSeen_append, ih (by omega)]
      simp only [List.map_cons, List.map_nil, foldSeen, List.foldl_cons,
        List.foldl_nil]
      simp only [is_duplicate, if_neg hmem, if_neg hle]
      rw [Finset.range_succ, Finset.image_insert]

end Microshare

namespace Microshare

/-- C6 counterexample: after 1001 distinct fresh ids the in-memory set
holds 1001 ids — the claimed cap of 1000 is exceeded (eviction only
fires on the call after the size passes 1000). -/
theorem seen_set_exceeds_claimed_cap :
    (foldSeen ∅ ((List.range 1001).map (Nat.cast : Nat → Int))).card = 1001 ∧
    ¬ (foldSeen ∅ ((List.range 1001).map (Nat.cast : Nat → Int))).card ≤ 1000 := by
  have h : (foldSeen ∅ ((List.range 1001).map (Nat.cast : Nat → Int))).card = 1001 := by
    rw [foldSeen_range 1001 le_rfl,
      Finset.card_image_of_injective _ Nat.cast_injective, Finset.card_range]
  exact ⟨h, by omega⟩

/-- C6 amended: the effective cap is 1001, not 1000 — starting from an
empty set, after any sequence of `is_duplicate` calls the set holds at
most 1001 ids; a call with an unseen id that finds more than 1000 ids
evicts down to the `card − 500` numerically largest before inserting
(a call with an already-seen id returns early and never evicts). -/
theorem seen_set_bounded (ids : List Int) (seen : Finset Int) (i : Int)
    (hfresh : i ∉ seen) (hbig : 1000 < seen.card) :
    (foldSeen ∅ ids).card ≤ 1001 ∧
    (is_duplicate seen i).2
      = insert i (((seen.sort (· ≤ ·)).drop 500).toFinset) ∧
    ((is_duplicate seen i).2).card ≤ seen.card - 500 + 1 := by
  refine ⟨?_, ?_, ?_⟩
  · have main : ∀ (l : List Int) (s : Finset Int), s.card ≤ 1001 →
        (foldSeen s l).card ≤ 1001 := by
      intro l
      induction l with
      | nil => intro s hs; simpa [foldSeen] using hs
      | cons j t ih =>
          intro s hs
          simp only [foldSeen, List.foldl_cons]
          exact ih _ (is_duplicate_card_le s j hs)
    exact main ids ∅ (by simp)
  · rw [is_duplicate, if_neg hfresh, if_pos hbig]
  · rw [is_duplicate, if_neg hfresh, if_pos hbig]
    calc (insert i (((seen.sort (· ≤ ·)).drop 500).toFinset)).card
        ≤ (((seen.sort (· ≤ ·)).drop 500).toFinset).card + 1 :=
          Finset.card_insert_le _ _
      _ = seen.card - 500 + 1 := by rw [evicted_card]

/-- Witness for the amended C6 at a concrete oversized set (ids 0..1000)
and the fresh id −1. -/
theorem seen_set_bounded_witness :
    (foldSeen ∅ [3, 3, 7]).card ≤ 1001 ∧
    ((is_duplicate (Finset.image (Nat.cast : Nat → Int) (Finset.range 1001))
        (-1)).2).card
      ≤ (Finset.image (Nat.cast : Nat → Int) (Finset.range 1001)).card - 500 + 1 := by
  have hfresh : (-1 : Int) ∉ Finset.image (Nat.cast : Nat → Int) (Finset.range 1001) := by
    simp only [Finset.mem_image, Finset.mem_range]
    rintro ⟨x, hx, he⟩
    omega
  have hbig : 1000 < (Finset.image (Nat.cast : Nat → Int) (Finset.range 1001)).card := by
    rw [Finset.card_image_of_injective _ Nat.cast_injective, Finset.card_range]
    omega
  have h := seen_set_bounded [3, 3, 7]
      (Finset.image (Nat.cast : Nat → Int) (Finset.range 1001)) (-1) hfresh hbig
  exact ⟨h.1, h.2.2⟩

/-- The snapshot fan-out loop succeeds exactly when every location's
query succeeds: the single enclosing `try` turns any per-location
failure into a failure of the whole call. -/
lemma queryLocations_isOk_iff (query : String → Except String (List DashRecord)) :
    ∀ locs : List (String × String),
      (queryLocations query locs).isOk = true
        ↔ ∀ p ∈ locs, (query p.2).isOk = true := by
  intro locs
  induction locs with
  | nil => simp [queryLocations, Except.isOk, Except.toBool]
  | cons hd tl ih =>
      cases hq : query hd.2 with
      | error e =>
          simp only [queryLocations, hq]
          constructor
          · intro h; simp [Except.isOk, Except.toBool] at h
          · intro h
            have := h hd (List.mem_cons_self hd tl)
            rw [hq] at this
            simp [Except.isOk, Except.toBool] at this
      | ok recs =>
          cases hrest : queryLocations query tl with
          | error e =>
              simp only [queryLocations, hq, hrest]
              constructor
              · intro h; simp [Except.isOk, Except.toBool] at h
              · intro h
                have : (queryLocations query tl).isOk = true :=
                  ih.mpr (fun p hp => h p (List.mem_cons_of_mem hd hp))
                rw [hrest] at this
                simp [Except.isOk, Except.toBool] at this
          | ok more =>
              simp only [queryLocations, hq, hrest]
              constructor
              · intro _ p hp
                rcases List.mem_cons.mp hp with h | h
                · subst h; simp [hq, Except.isOk, Except.toBool]
                · have := ih.mp (by simp [hrest, Except.isOk, Except.toBool])
                  exact this p h
              · intro _; simp [Except.isOk, Except.toBool]

/-- Same single-`try` structure for the people-counter fan-out loop. -/
lemma queryLocationsPC_isOk_iff (query : String → Except String (List DashRecord)) :
    ∀ locs : List String,
      (queryLocationsPC query locs).isOk = true
        ↔ ∀ loc ∈ locs, (query loc).isOk = true := by
  intro locs
  induction locs with
  | nil => simp [queryLocationsPC, Except.isOk, Except.toBool]
  | cons hd tl ih =>
      cases hq : query hd with
      | error e =>
          simp only [queryLocationsPC, hq]
          constructor
          · intro h; simp [Except.isOk, Except.toBool] at h
          · intro h
            have := h hd (List.mem_cons_self hd tl)
            rw [hq] at this
            simp [Except.isOk, Except.toBool] at this
      | ok recs =>
          cases hrest : queryLocationsPC query tl with
          | error e =>
              simp only [queryLocationsPC, hq, hrest]
              constructor
              · intro h; simp [Except.isOk, Except.toBool] at h
              · intro h
                have : (queryLocationsPC query tl).isOk = true :=
                  ih.mpr (fun p hp => h p (List.mem_cons_of_mem hd hp))
                rw [hrest] at this
                simp [Except.isOk, Except.toBool] at this
          | ok more =>
              simp only [queryLocationsPC, hq, hrest]
              constructor
              · intro _ loc hp
                rcases List.mem_cons.mp hp with h | h
                · subst h; simp [hq, Except.isOk, Except.toBool]
                · have := ih.mp (by simp [hrest, Except.isOk, Except.toBool])
                  exact this loc h
              · intro _; simp [Except.isOk, Except.toBool]

/-- C2 counterexample: two discovered locations, A's windowed query
fails with an HTTP 500 while B's succeeds with a record — the whole
retrieval aborts with `MicroshareAPIError`, returning nothing: B's
records are lost and no per-cycle errors count is reported, in both the
snapshot and the people-counter fan-out. -/
theorem fan_out_failure_aborts_counterexample :
    get_snapshot_full_coverage "" ["A", "B"]
        (fun l => if l = "A" then .error "HTTP 500"
                  else .ok [{ line := [7], tags := ["site"] }])
      = .error "HTTP 500" ∧
    (fun l => if l = "A" then (.error "HTTP 500" : Except String (List DashRecord))
              else .ok [{ line := [7], tags := ["site"] }]) "B"
      = .ok [{ line := [7], tags := ["site"] }] ∧
    get_people_counter_full_coverage ["A", "B"]
        (fun l => if l = "A" then .error "HTTP 500"
                  else .ok [{ line := [7], tags := ["site"] }])
      = .error "HTTP 500" := by
  refine ⟨rfl, rfl, rfl⟩

/-- C2 amended: a failing windowed query for any discovered location
aborts the whole fan-out fetch (the client raises `MicroshareAPIError`
and returns no records at all, and the cycle consequently hard-fails
rather than reporting a per-location errors count); the fetch succeeds
only when every location's query succeeds. -/
theorem fan_out_succeeds_iff_all_locations (locPfx : String)
    (pcs : List String) (query : String → Except String (List DashRecord))
    (hne : pcs ≠ []) :
    ((get_snapshot_full_coverage locPfx pcs query).isOk = true
      ↔ ∀ pc ∈ pcs, (query (mapLoc locPfx pc)).isOk = true) ∧
    ((get_people_counter_full_coverage pcs query).isOk = true
      ↔ ∀ loc ∈ pcs, (query loc).isOk = true) := by
  constructor
  · rw [get_snapshot_full_coverage, if_neg hne, queryLocations_isOk_iff]
    constructor
    · intro h pc hpc
      exact h (pc, mapLoc locPfx pc) (List.mem_map.mpr ⟨pc, hpc, rfl⟩)
    · intro h p hp
      rcases List.mem_map.mp hp with ⟨pc, hpc, rfl⟩
      exact h pc hpc
  · rw [get_people_counter_full_coverage, if_neg hne, queryLocationsPC_isOk_iff]

/-- Witness for the amended C2: with one location whose query succeeds,
the fan-out fetch succeeds. -/
theorem fan_out_succeeds_iff_all_locations_witness :
    (get_snapshot_full_coverage "" ["A"]
        (fun _ => .ok [{ line := [1], tags := [] }])).isOk = true := by
  have h := fan_out_succeeds_iff_all_locations ""
      ["A"] (fun _ => .ok [{ line := [1], tags := [] }]) (by decide)
  exact h.1.mpr (fun pc _ => rfl)

/-- C8 counterexample: a cache file holding a far-future `expires_at`
but no `access_token` still takes the cache path — `_get_token` returns
the absent cached value (Python `None`) without any handshake, so
"returns the cached token iff a cached token is present and fresh"
fails: no token is present, yet the cache is returned. -/
theorem get_token_cache_without_token_counterexample :
    get_token (some { access_token := none, expires_at := some 1000000 }) 0
        (.error "connection refused")
      = .ok { token := none, fromCache := true, saved := none } := by
  rfl

/-- C8 amended: the cache path is taken iff the cache file is readable
and holds an `expires_at` with now < expires_at − 5 min — the presence
of `access_token` itself is not checked, and the cached value (possibly
absent) is returned as-is.  Otherwise the handshake runs: a transport
error, a non-303 status, a missing/malformed cookie JWT, or a JWT
without an access token each surface as `MicroshareAuthError`, and on
success the new token is persisted to the cache file before being
returned. -/
theorem get_token_cache_iff_fresh_expiry (cache : Option TokenCacheFile)
    (now : Int) (login : Except String LoginResp) :
    ((load_token_from_file cache now).1 = true
      ↔ ∃ f, cache = some f ∧ ∃ e, f.expires_at = some e ∧ now < e - 5 * 60) ∧
    ((load_token_from_file cache now).1 = true →
      get_token cache now login
        = .ok { token := (load_token_from_file cache now).2,
                fromCache := true, saved := none }) ∧
    ((load_token_from_file cache now).1 = false →
      (∀ e, login = .error e →
        ∃ msg, get_token cache now login = .error msg) ∧
      (∀ resp, login = .ok resp → resp.status ≠ 303 →
        ∃ msg, get_token cache now login = .error msg) ∧
      (∀ resp, login = .ok resp → resp.jwt = none →
        ∃ msg, get_token cache now login = .error msg) ∧
      (∀ resp p, login = .ok resp → resp.jwt = some p → p.access_token = none →
        ∃ msg, get_token cache now login = .error msg) ∧
      (∀ resp p tok, login = .ok resp → resp.status = 303 →
        resp.jwt = some p → p.access_token = some tok →
        ∃ e, get_token cache now login
          = .ok { token := some tok, fromCache := false,
                  saved := some { access_token := some tok,
                                  expires_at := some e } })) := by
  refine ⟨?_, ?_, ?_⟩
  · constructor
    · intro h
      cases cache with
      | none => simp [load_token_from_file] at h
      | some f =>
          cases hf : f.expires_at with
          | none => simp [load_token_from_file, hf] at h
          | some e =>
              refine ⟨f, rfl, e, hf, ?_⟩
              by_contra hlt
              simp only [load_token_from_file, hf] at h
              rw [if_neg hlt] at h
              simp at h
    · rintro ⟨f, rfl, e, hf, hlt⟩
      simp only [load_token_from_file, hf]
      rw [if_pos hlt]
  · intro h
    rcases hl : load_token_from_file cache now with ⟨b, t⟩
    rw [hl] at h
    subst h
    simp [get_token, hl]
  · intro h
    rcases hl : load_token_from_file cache now with ⟨b, t⟩
    rw [hl] at h
    subst h
    refine ⟨?_, ?_, ?_, ?_, ?_⟩
    · rintro e rfl
      exact ⟨"Failed to get token via web login: " ++ e, by simp [get_token, hl]⟩
    · rintro resp rfl hst
      exact ⟨"Login failed", by simp [get_token, hl, hst]⟩
    · rintro resp rfl hjwt
      by_cases hst : resp.status = 303
      · exact ⟨"No PLAY_SESSION cookie or invalid JWT",
          by simp [get_token, hl, hst, hjwt]⟩
      · exact ⟨"Login failed", by simp [get_token, hl, hst]⟩
    · rintro resp p rfl hjwt htok
      by_cases hst : resp.status = 303
      · exact ⟨"No access_token in JWT payload",
          by simp [get_token, hl, hst, hjwt, htok]⟩
      · exact ⟨"Login failed", by simp [get_token, hl, hst]⟩
    · rintro resp p tok rfl hst hjwt htok
      refine ⟨(match p.exp with
        | some e => if e ≠ 0 then e else now + 86400
        | none => now + 86400), ?_⟩
      simp [get_token, hl, hst, hjwt, htok]

/-- Witness for the amended C8: a fresh cached token is returned from
the cache without any handshake, even though the login endpoint is
unreachable. -/
theorem get_token_cache_iff_fresh_expiry_witness :
    get_token (some { access_token := some "tok", expires_at := some 10000 }) 0
        (.error "connection refused")
      = .ok { token := some "tok", fromCache := true, saved := none } := by
  have h := get_token_cache_iff_fresh_expiry
      (some { access_token := some "tok", expires_at := some 10000 }) 0
      (.error "connection refused")
  exact h.2.1 (by decide)

end Microshare
